import Mathlib

/-!
Shallow embedding of the agent-deck repository's core:
`internal/session/storage.go` (atomic snapshot persistence) and
`cmd/agent-deck/main.go` (CLI handlers `handleAdd`, `handleRemove`,
tool detection).  File-system effects are modelled as an explicit
map from paths to file contents; operations that can fail at the OS
level are parameterised by an environment recording which of them
fail.  JSON serialisation of the snapshot record types is modelled
as an injective constructor (`Content.valid`), matching the fact
that `json.MarshalIndent`/`json.Unmarshal` round-trip these plain
record types faithfully; a file that does not parse is
`Content.invalid`.
-/

set_option autoImplicit false

/-- Decidable equality for `Except`, so that concrete results of the
fallible operations can be checked by `decide`. -/
instance instDecEqExcept {ε : Type} {α : Type} [DecidableEq ε] [DecidableEq α] :
    DecidableEq (Except ε α)
  | .ok a, .ok b =>
    if h : a = b then .isTrue (congrArg Except.ok h)
    else .isFalse (fun hc => h (Except.ok.inj hc))
  | .ok _, .error _ => .isFalse (fun hc => Except.noConfusion hc)
  | .error _, .ok _ => .isFalse (fun hc => Except.noConfusion hc)
  | .error a, .error b =>
    if h : a = b then .isTrue (congrArg Except.error h)
    else .isFalse (fun hc => h (Except.error.inj hc))

namespace AgentDeck

/-- Status enum of an instance (Running, Waiting, Idle, Error) from
`internal/session` (referenced by `storage.go`). -/
inductive Status where
  | running
  | waiting
  | idle
  | error
  deriving DecidableEq, Repr

/-- `tmux.Session` as visible from `storage.go`: the stored name plus the
arguments `ReconnectSessionWithStatus` was given. -/
structure TmuxSession where
  Name : String
  Title : String
  WorkDir : String
  Command : String
  PrevStatus : String
  deriving DecidableEq, Repr

/-- `session.Instance`, the in-memory managed session
(fields as read and written by `storage.go`). -/
structure Instance where
  ID : String
  Title : String
  ProjectPath : String
  GroupPath : String
  Command : String
  Tool : String
  Status : Status
  CreatedAt : Nat
  tmuxSession : Option TmuxSession
  deriving DecidableEq, Repr

/-- The bound external-session name an instance serialises to:
`""` when `tmuxSession == nil`, the session's name otherwise
(`SaveWithGroups`, storage.go lines 92-95). -/
def boundName (inst : Instance) : String :=
  match inst.tmuxSession with
  | none => ""
  | some t => t.Name

/-- `InstanceData`: the serializable session record (storage.go). -/
structure InstanceData where
  ID : String
  Title : String
  ProjectPath : String
  GroupPath : String
  Command : String
  Tool : String
  Status : Status
  CreatedAt : Nat
  TmuxSession : String
  deriving DecidableEq, Repr

/-- `GroupData`: the serializable group record (storage.go). -/
structure GroupData where
  Name : String
  Path : String
  Expanded : Bool
  Order : Int
  deriving DecidableEq, Repr

/-- `session.Group` as serialised by `SaveWithGroups` (name, path,
expanded flag, order). -/
structure Group where
  Name : String
  Path : String
  Expanded : Bool
  Order : Int
  deriving DecidableEq, Repr

/-- `session.GroupTree` as visible from `storage.go`: only its
`GroupList` field is read by persistence. -/
structure GroupTree where
  GroupList : List Group
  deriving DecidableEq, Repr

/-- `StorageData`: the JSON structure for persistence.  The Go field
`Groups []*GroupData` with `omitempty` makes a nil and an empty slice
indistinguishable on disk; both are the empty list here. -/
structure StorageData where
  Instances : List InstanceData
  Groups : List GroupData
  UpdatedAt : Nat
  deriving DecidableEq, Repr

/-- Contents of a file: a snapshot that `json.Unmarshal` accepts
(serialisation modelled as the injective constructor `valid`), or
bytes that fail to unmarshal. -/
inductive Content where
  | valid (d : StorageData)
  | invalid (raw : String)
  deriving DecidableEq, Repr

/-- The file system visible to `storage.go`: a map from path to
optional file contents. -/
structure FSState where
  files : String → Option Content

/-- Write (create or overwrite) a file. -/
def FSState.set (fs : FSState) (p : String) (c : Content) : FSState :=
  ⟨fun q => if q = p then some c else fs.files q⟩

/-- Delete a file (the source path disappears on `os.Rename`). -/
def FSState.del (fs : FSState) (p : String) : FSState :=
  ⟨fun q => if q = p then none else fs.files q⟩

/-- `session.Storage`: holds the canonical snapshot path. -/
structure Storage where
  path : String
  deriving DecidableEq, Repr

/-- Which OS-level steps of a save fail, plus the current time used for
`UpdatedAt`. -/
structure IOEnv where
  now : Nat
  writeTmpFails : Bool
  backupCopyFails : Bool
  renameFails : Bool
  deriving DecidableEq, Repr

/-- Observable file-system events emitted by one save, in order. -/
inductive SaveEvent where
  | wroteTmp
  | backupCopied
  | backupFailed
  | renamed
  deriving DecidableEq, Repr

/-- Result of `SaveWithGroups`: the returned error (if any), the
resulting file system, and the ordered event trace. -/
structure SaveResult where
  err : Option String
  fs : FSState
  events : List SaveEvent

/-- `instanceToData`: the per-instance serialisation loop of
`SaveWithGroups` (storage.go lines 91-107). -/
def instanceToData (inst : Instance) : InstanceData :=
  { ID := inst.ID
    Title := inst.Title
    ProjectPath := inst.ProjectPath
    GroupPath := inst.GroupPath
    Command := inst.Command
    Tool := inst.Tool
    Status := inst.Status
    CreatedAt := inst.CreatedAt
    TmuxSession := boundName inst }

/-- The group list serialised by `SaveWithGroups` (storage.go lines
109-120): nil tree gives nil groups, otherwise `GroupList` in order. -/
def groupDataList : Option GroupTree → List GroupData :=
  fun tree =>
    match tree with
    | none => []
    | some t => t.GroupList.map (fun g =>
        { Name := g.Name, Path := g.Path, Expanded := g.Expanded, Order := g.Order })

/-- The `StorageData` value marshalled by `SaveWithGroups`. -/
def storageDataOf (env : IOEnv) (instances : List Instance)
    (tree : Option GroupTree) : StorageData :=
  { Instances := instances.map instanceToData
    Groups := groupDataList tree
    UpdatedAt := env.now }

/-- `Storage.SaveWithGroups` (storage.go lines 84-159): marshal, write to
`path+".tmp"`, best-effort copy of an existing canonical file to
`path+".bak"` (`copyFile`, whose error is ignored), then rename the
temporary file onto the canonical path.  A failing `os.WriteFile` or
`os.Rename` leaves the target path untouched (`os.Rename` is atomic). -/
def Storage.saveWithGroups (s : Storage) (env : IOEnv) (fs : FSState)
    (instances : List Instance) (tree : Option GroupTree) : SaveResult :=
  let data := storageDataOf env instances tree
  let tmpPath := s.path ++ ".tmp"
  let bakPath := s.path ++ ".bak"
  -- Step 1: write to temporary file
  if env.writeTmpFails then
    { err := some "failed to write temp file", fs := fs, events := [] }
  else
    let fs1 := fs.set tmpPath (.valid data)
    -- Step 2: create backup of existing file (if it exists); errors ignored
    let step2 : FSState × List SaveEvent :=
      match fs1.files s.path with
      | some c =>
        if env.backupCopyFails then
          (fs1, [SaveEvent.wroteTmp, SaveEvent.backupFailed])
        else
          (fs1.set bakPath c, [SaveEvent.wroteTmp, SaveEvent.backupCopied])
      | none => (fs1, [SaveEvent.wroteTmp])
    -- Step 3: atomic rename of tmp onto the canonical path
    if env.renameFails then
      { err := some "failed to finalize save", fs := step2.1, events := step2.2 }
    else
      { err := none
        fs := (step2.1.set s.path (.valid data)).del tmpPath
        events := step2.2 ++ [SaveEvent.renamed] }

/-- Go's `strings.HasPrefix s pre`, computed on the character list so
that it evaluates inside the kernel. -/
def goHasPrefix (s pre : String) : Bool :=
  pre.toList.isPrefixOf s.toList

/-- Split a character list on `'/'` (the accumulator holds the current
chunk reversed); the list-level core of `strings.Split s "/"`. -/
def splitSlash (acc : List Char) : List Char → List (List Char)
  | [] => [acc.reverse]
  | c :: cs => if c = '/' then acc.reverse :: splitSlash [] cs else splitSlash (c :: acc) cs

/-- `strings.Split path "/"` as strings. -/
def goSplitSlash (path : String) : List String :=
  (splitSlash [] path.toList).map (fun cs => ⟨cs⟩)

/-- Go's `strings.ToLower`, restricted to ASCII case mapping (every
keyword this repository compares against is ASCII). -/
def goToLower (s : String) : String :=
  ⟨s.toList.map Char.toLower⟩

/-- Drop the first `n` characters (Go slicing `path[n:]`; used only
after an ASCII prefix of `n` bytes, where bytes and characters agree). -/
def goDrop (s : String) (n : Nat) : String :=
  ⟨s.toList.drop n⟩

/-- `strings.Join parts "/"`: concatenate with `"/"` between elements. -/
def joinSlash : List String → String
  | [] => ""
  | [a] => a
  | a :: b :: rest => a ++ "/" ++ joinSlash (b :: rest)

/-- The element-processing loop of Go's `path/filepath.Clean` (Unix):
`out` is the output stack (reversed); `""` and `"."` elements are
dropped; `".."` pops a poppable element, is dropped at the root, and is
kept when the path is relative and nothing can be popped. -/
def cleanLoop (rooted : Bool) (out : List String) : List String → List String
  | [] => out
  | p :: ps =>
    if p = "" ∨ p = "." then cleanLoop rooted out ps
    else if p = ".." then
      match out with
      | [] => if rooted then cleanLoop rooted [] ps else cleanLoop rooted [".."] ps
      | o :: rest =>
        if o = ".." then cleanLoop rooted (".." :: o :: rest) ps
        else cleanLoop rooted rest ps
    else cleanLoop rooted (p :: out) ps

/-- Go's `path/filepath.Clean` on Unix: purely lexical simplification of
a slash-separated path. -/
def goClean (path : String) : String :=
  if path = "" then "."
  else
    let rooted := goHasPrefix path "/"
    let parts := (cleanLoop rooted [] (goSplitSlash path)).reverse
    let body := joinSlash parts
    if rooted then
      if parts = [] then "/" else "/" ++ body
    else
      if parts = [] then "." else body

/-- Go's `path/filepath.Join` on Unix: drop empty elements, join with
`"/"`, then `Clean`; all-empty input gives `""`.  (Go joins from the
first non-empty element keeping later empties; `Clean` collapses the
resulting doubled slashes, so filtering all empties first is
equivalent.) -/
def goJoin (elems : List String) : String :=
  let es := elems.filter (fun e => e ≠ "")
  if es.isEmpty then "" else goClean (joinSlash es)

/-- `expandTilde` (storage.go lines 15-23): a path starting with `"~/"`
has that prefix replaced by `filepath.Join(home, rest)` when
`os.UserHomeDir` succeeds (`home = some h`); every other path — and any
path when the home lookup fails — is returned unchanged. -/
def expandTilde (home : Option String) (path : String) : String :=
  if goHasPrefix path "~/" then
    match home with
    | some h => goJoin [h, goDrop path 2]
    | none => path
  else path

/-- Modelled from the spec: `extractGroupPath` lives in the
`internal/session` package outside `src/`; per §4.4, "instances lacking
a group path (legacy schema) have one synthesized from the parent
segment of their project path". -/
def extractGroupPath (projectPath : String) : String :=
  let parts := (goSplitSlash (goClean projectPath)).filter (fun e => e ≠ "")
  match parts.reverse with
  | _ :: parent :: _ => parent
  | _ => ""

/-- `statusToString` (storage.go lines 260-273): converts a `Status` to
the string handed to `tmux.ReconnectSessionWithStatus`; errors are
"treated as needing attention" and map to `"waiting"`. -/
def statusToString (s : Status) : String :=
  match s with
  | .running => "active"
  | .waiting => "waiting"
  | .idle => "idle"
  | .error => "waiting"

/-- Environment a load runs in: the home directory (if any) and —
modelled from the spec (§4.4: a bound instance's "status [is]
immediately recomputed via a single detector pass") — the status the
`UpdateStatus` detector pass assigns to a bound session, by session
name.  `UpdateStatus` itself lives outside `src/`. -/
structure LoadEnv where
  home : Option String
  detect : String → Status

/-- One call to `tmux.ReconnectSessionWithStatus` made during load
(storage.go lines 205-211), with its five arguments. -/
structure ReconnectCall where
  name : String
  title : String
  workDir : String
  command : String
  prevStatus : String
  deriving DecidableEq, Repr

/-- The reconnect call the load loop makes for one stored record: none
when `TmuxSession` is empty, otherwise the five arguments of
`ReconnectSessionWithStatus` — note the prior status is
`statusToString` of the persisted status. -/
def reconnectCallOf (d : InstanceData) : Option ReconnectCall :=
  if d.TmuxSession = "" then none
  else some
    { name := d.TmuxSession
      title := d.Title
      workDir := d.ProjectPath
      command := d.Command
      prevStatus := statusToString d.Status }

/-- The per-record body of the `LoadWithGroups` loop (storage.go lines
197-243): rebuild the tmux session object from the stored name, migrate
an empty group path, expand a tilde-prefixed project path, and — for
bound instances — run the `UpdateStatus` detector pass (modelled by
`env.detect`). -/
def loadInstance (env : LoadEnv) (d : InstanceData) : Instance :=
  let tmuxSess : Option TmuxSession :=
    if d.TmuxSession = "" then none
    else some
      { Name := d.TmuxSession
        Title := d.Title
        WorkDir := d.ProjectPath
        Command := d.Command
        PrevStatus := statusToString d.Status }
  let groupPath := if d.GroupPath = "" then extractGroupPath d.ProjectPath else d.GroupPath
  let projectPath := expandTilde env.home d.ProjectPath
  let status :=
    match tmuxSess with
    | some t => env.detect t.Name
    | none => d.Status
  { ID := d.ID
    Title := d.Title
    ProjectPath := projectPath
    GroupPath := groupPath
    Command := d.Command
    Tool := d.Tool
    Status := status
    CreatedAt := d.CreatedAt
    tmuxSession := tmuxSess }

/-- `Storage.LoadWithGroups` (storage.go lines 177-247): a missing
canonical file yields the empty snapshot with no error; an unparsable
one yields the unmarshal error; otherwise each stored record is turned
into an `Instance` and the stored groups are returned as-is.  The third
component is the ordered trace of `ReconnectSessionWithStatus` calls.
Only the canonical path is ever read. -/
def Storage.loadWithGroups (s : Storage) (env : LoadEnv) (fs : FSState) :
    Except String (List Instance × List GroupData × List ReconnectCall) :=
  match fs.files s.path with
  | none => .ok ([], [], [])
  | some (.invalid _) => .error "failed to unmarshal JSON"
  | some (.valid data) =>
    .ok (data.Instances.map (loadInstance env), data.Groups,
         data.Instances.filterMap reconnectCallOf)

/-!
CLI handlers from `cmd/agent-deck/main.go`.
-/

/-- `sub` occurs as a contiguous run somewhere in the list: it is a
prefix here or occurs in the tail. -/
def containsSub (sub : List Char) : List Char → Bool
  | [] => sub.isEmpty
  | c :: cs => sub.isPrefixOf (c :: cs) || containsSub sub cs

/-- Go's `strings.Contains s sub`: `sub` occurs as a contiguous
substring of `s`. -/
def goContains (s sub : String) : Bool :=
  containsSub sub.toList s.toList

/-- `detectTool` (main.go lines 399-415): lowercase the command, then
return the first of claude/aider/gemini/codex/cursor whose name occurs
in it, falling back to `"shell"`. -/
def detectTool (cmd : String) : String :=
  let c := goToLower cmd
  if goContains c "claude" then "claude"
  else if goContains c "aider" then "aider"
  else if goContains c "gemini" then "gemini"
  else if goContains c "codex" then "codex"
  else if goContains c "cursor" then "cursor"
  else "shell"

/-- The keyword test order of `detectTool`. -/
def toolKeywords : List String := ["claude", "aider", "gemini", "codex", "cursor"]

/-- Spec-side restatement of C10's words: the first keyword (in test
order) occurring case-insensitively in the command, else `"shell"`.
Stated with `List.find?` to be compared against `detectTool`. -/
def detectToolSpec (cmd : String) : String :=
  (toolKeywords.find? (fun k => goContains (goToLower cmd) k)).getD "shell"

/-- The match test of `handleRemove` (main.go line 316): exact id, or
the identifier as a prefix of the id (no ambiguity check), or exact
title. -/
def removeMatch (identifier : String) (inst : Instance) : Bool :=
  inst.ID = identifier || goHasPrefix inst.ID identifier || inst.Title = identifier

/-- The kill request the remove loop issues for one matched instance:
`inst.Exists()` / `inst.Kill()` live outside `src/`; modelled from the
spec (§2, §3: remove "requests termination of the backing external
session if present", and kill of an absent session is a no-op), an
instance kills its bound session exactly when one is bound and the
external host still has it (`alive`). -/
def killOf (alive : String → Bool) (inst : Instance) : Option String :=
  match inst.tmuxSession with
  | none => none
  | some t => if alive t.Name then some t.Name else none

/-- The find-and-remove loop of `handleRemove` (main.go lines 312-326),
walking the instance list in order: a matched instance is dropped from
the rebuilt list (and its live bound session killed), an unmatched one
is appended; `found` records whether anything matched.  Returns
(found, newInstances, killed session names in order). -/
def handleRemoveCore (alive : String → Bool) (identifier : String) :
    List Instance → Bool × List Instance × List String
  | [] => (false, [], [])
  | inst :: rest =>
    let r := handleRemoveCore alive identifier rest
    if removeMatch identifier inst then
      (true, r.2.1,
       (match killOf alive inst with
        | some n => n :: r.2.2
        | none => r.2.2))
    else
      (r.1, inst :: r.2.1, r.2.2)

/-- The duplicate-path guard and append of `handleAdd` (main.go lines
153-177): if any loaded instance already has the resolved project path,
the handler exits before creating or saving anything (`none`);
otherwise the new instance is appended and the list saved. -/
def handleAddCore (path : String) (newInst : Instance) (instances : List Instance) :
    Option (List Instance) :=
  if instances.any (fun inst => inst.ProjectPath = path) then none
  else some (instances ++ [newInst])

/-- The process environment `GetStoragePath` runs in: the result of
`os.UserHomeDir`, plus — modelled from the spec (§6: "an
environment-level profile selector redirects the storage root") — the
value of the profile selector variable, which the code never reads. -/
structure OSEnv where
  home : Option String
  profileSelector : Option String

/-- `GetStoragePath` (storage.go lines 250-257): errors when the home
directory is unavailable, otherwise
`filepath.Join(homeDir, ".agent-deck", "sessions.json")`. -/
def GetStoragePath (env : OSEnv) : Except String String :=
  match env.home with
  | none => .error "failed to get home directory"
  | some homeDir => .ok (goJoin [homeDir, ".agent-deck", "sessions.json"])

/-!
Helper lemmas about paths and the file-system model.
-/

theorem string_data_append (p q : String) : (p ++ q).data = p.data ++ q.data := by
  cases p; cases q; rfl

theorem append_suffix_ne (p q : String) (hq : q.data ≠ []) : p ++ q ≠ p := by
  intro h
  have hd := congrArg String.data h
  rw [string_data_append] at hd
  have hl := congrArg List.length hd
  rw [List.length_append] at hl
  exact hq (List.length_eq_zero.mp (by omega))

theorem ne_path_tmp (p : String) : p ≠ p ++ ".tmp" :=
  (append_suffix_ne p ".tmp" (by decide)).symm

theorem ne_path_bak (p : String) : p ≠ p ++ ".bak" :=
  (append_suffix_ne p ".bak" (by decide)).symm

theorem FSState.files_set (fs : FSState) (p q : String) (c : Content) :
    (fs.set p c).files q = if q = p then some c else fs.files q := rfl

theorem FSState.files_del (fs : FSState) (p q : String) :
    (fs.del p).files q = if q = p then none else fs.files q := rfl

/-- C3: `load()` when the canonical snapshot file does not exist returns
an empty instance list and no groups with no error, for every storage
path. -/
theorem load_missing_file_c3 (s : Storage) (env : LoadEnv) (fs : FSState)
    (h : fs.files s.path = none) :
    s.loadWithGroups env fs = .ok ([], [], []) := by
  unfold Storage.loadWithGroups
  rw [h]

/-- Witness for C3 at a concrete storage path and an empty file system. -/
theorem load_missing_file_c3_witness :
    (Storage.mk "/d/sessions.json").loadWithGroups
        ⟨some "/home/u", fun _ => Status.idle⟩ ⟨fun _ => none⟩ = .ok ([], [], []) :=
  load_missing_file_c3 _ _ _ rfl

/-- C4: `load()` on a canonical file that exists but does not parse
returns the unmarshal (parse) error, and the result is unchanged by
whatever the backup (`.bak`) file holds — the backup is never read or
substituted. -/
theorem load_corrupt_c4 (s : Storage) (env : LoadEnv) (fs : FSState) (raw : String)
    (h : fs.files s.path = some (.invalid raw)) :
    s.loadWithGroups env fs = .error "failed to unmarshal JSON" ∧
    ∀ c : Option Content,
      s.loadWithGroups env ⟨fun q => if q = s.path ++ ".bak" then c else fs.files q⟩ =
        .error "failed to unmarshal JSON" := by
  constructor
  · unfold Storage.loadWithGroups
    rw [h]
  · intro c
    unfold Storage.loadWithGroups
    simp only [if_neg (ne_path_bak s.path), h]

/-- Fixture for C4: a corrupt canonical file. -/
def fsC4 : FSState :=
  ⟨fun q => if q = "/d/sessions.json" then some (.invalid "not-json") else none⟩

/-- Witness for C4: the corrupt file yields the parse error, even when a
perfectly valid backup file sits next to it. -/
theorem load_corrupt_c4_witness :
    (Storage.mk "/d/sessions.json").loadWithGroups
        ⟨some "/home/u", fun _ => Status.idle⟩ fsC4 = .error "failed to unmarshal JSON" ∧
    (Storage.mk "/d/sessions.json").loadWithGroups
        ⟨some "/home/u", fun _ => Status.idle⟩
        ⟨fun q => if q = "/d/sessions.json" ++ ".bak"
          then some (.valid ⟨[], [], 0⟩) else fsC4.files q⟩ =
      .error "failed to unmarshal JSON" := by
  have h := load_corrupt_c4 (Storage.mk "/d/sessions.json")
    ⟨some "/home/u", fun _ => Status.idle⟩ fsC4 "not-json" rfl
  exact ⟨h.1, h.2 (some (.valid ⟨[], [], 0⟩))⟩

/-- C2: save writes the snapshot to the temporary path first, copies an
existing canonical file to the backup path second, and renames last (the
event trace); a backup-copy failure never causes an error (the error is
`none` whenever temp write and rename succeed, whatever the backup copy
did); and when save does return an error, the canonical file's contents
are exactly what they were before the call. -/
theorem save_atomic_c2 (s : Storage) (env : IOEnv) (fs : FSState)
    (instances : List Instance) (tree : Option GroupTree) :
    ((s.saveWithGroups env fs instances tree).err ≠ none →
        (env.writeTmpFails = true ∨ env.renameFails = true) ∧
        (s.saveWithGroups env fs instances tree).fs.files s.path = fs.files s.path) ∧
    (env.writeTmpFails = false → env.renameFails = false →
        (s.saveWithGroups env fs instances tree).err = none) ∧
    (s.saveWithGroups env fs instances tree).events =
      (if env.writeTmpFails then [] else
        SaveEvent.wroteTmp ::
          ((if (fs.files s.path).isSome then
              [if env.backupCopyFails then SaveEvent.backupFailed else SaveEvent.backupCopied]
            else []) ++
           (if env.renameFails then [] else [SaveEvent.renamed]))) := by
  obtain ⟨now, wtf, bcf, rnf⟩ := env
  cases wtf <;> cases bcf <;> cases rnf <;>
    rcases hfp : fs.files s.path with _ | c <;>
    simp [Storage.saveWithGroups, FSState.files_set, FSState.files_del,
      ne_path_tmp s.path, ne_path_bak s.path, hfp]

/-- Witness for C2: with an existing canonical file, a failing backup
copy still yields a successful save, and a failing rename leaves the
canonical contents untouched. -/
theorem save_atomic_c2_witness :
    ((Storage.mk "/d/sessions.json").saveWithGroups ⟨9, false, true, false⟩
        fsC4 [] none).err = none ∧
    ((Storage.mk "/d/sessions.json").saveWithGroups ⟨9, false, true, true⟩
        fsC4 [] none).fs.files "/d/sessions.json" = fsC4.files "/d/sessions.json" :=
  ⟨(save_atomic_c2 (Storage.mk "/d/sessions.json") ⟨9, false, true, false⟩ fsC4 [] none).2.1
      rfl rfl,
   ((save_atomic_c2 (Storage.mk "/d/sessions.json") ⟨9, false, true, true⟩ fsC4 [] none).1
      (by decide)).2⟩

/-- C10: `detectTool` is total with range contained in the six tool
names, and agrees with the order-sensitive specification: the first of
claude/aider/gemini/codex/cursor (in that test order) occurring
case-insensitively in the command, else `"shell"`. -/
theorem detectTool_total_c10 (cmd : String) :
    detectTool cmd = detectToolSpec cmd ∧
    detectTool cmd ∈ ["claude", "aider", "gemini", "codex", "cursor", "shell"] := by
  unfold detectTool detectToolSpec toolKeywords
  cases h1 : goContains (goToLower cmd) "claude" <;>
  cases h2 : goContains (goToLower cmd) "aider" <;>
  cases h3 : goContains (goToLower cmd) "gemini" <;>
  cases h4 : goContains (goToLower cmd) "codex" <;>
  cases h5 : goContains (goToLower cmd) "cursor" <;>
  simp [List.find?, h1, h2, h3, h4, h5]

/-- Fixture for C5: an unbound instance whose id starts with "ab". -/
def i5a : Instance := ⟨"ab1", "one", "/p/a", "g", "c", "shell", .idle, 0, none⟩

/-- Fixture for C5: a second instance whose id also starts with "ab",
bound to a live session. -/
def i5b : Instance :=
  ⟨"ab2", "two", "/p/b", "g", "c", "shell", .idle, 0,
   some ⟨"sessB", "two", "/p/b", "c", "idle"⟩⟩

/-- Counterexample to C5: the identifier "ab" is an ambiguous id prefix
(it prefixes two distinct ids) and is no instance's exact id or title,
yet `handleRemove` matches by prefix anyway and removes BOTH instances —
the rebuilt list is empty, so the instances other than the first match
do not remain. -/
theorem handleRemove_c5_counterexample :
    (handleRemoveCore (fun _ => true) "ab" [i5a, i5b]).2.1 = [] ∧
    i5a.ID ≠ "ab" ∧ i5b.ID ≠ "ab" ∧ i5a.Title ≠ "ab" ∧ i5b.Title ≠ "ab" ∧
    goHasPrefix i5a.ID "ab" = true ∧ goHasPrefix i5b.ID "ab" = true ∧
    i5a.ID ≠ i5b.ID := by decide

/-- C5 as amended: `remove(identifier)` matches by exact id, by id
prefix regardless of ambiguity, or by exact title, and removes EVERY
matching instance in list order (not just the first), requesting
termination of each matched instance's bound, still-existing external
session; exactly the non-matching instances remain, in order. -/
theorem handleRemove_amended_c5 (alive : String → Bool) (identifier : String)
    (instances : List Instance) :
    (handleRemoveCore alive identifier instances).1 =
      instances.any (removeMatch identifier) ∧
    (handleRemoveCore alive identifier instances).2.1 =
      instances.filter (fun inst => !(removeMatch identifier inst)) ∧
    (handleRemoveCore alive identifier instances).2.2 =
      (instances.filter (removeMatch identifier)).filterMap (killOf alive) := by
  induction instances with
  | nil => simp [handleRemoveCore]
  | cons inst rest ih =>
    cases hm : removeMatch identifier inst
    · simp [handleRemoveCore, hm, ih.1, ih.2.1, ih.2.2]
    · cases hk : killOf alive inst <;>
        simp [handleRemoveCore, hm, hk, ih.1, ih.2.1, ih.2.2]

/-- C6: `add` fails — creates nothing and leaves the persisted list
unchanged — whenever an instance with the exact resolved project path
already exists in the loaded list. -/
theorem handleAdd_duplicate_c6 (path : String) (newInst : Instance)
    (instances : List Instance)
    (h : ∃ inst ∈ instances, inst.ProjectPath = path) :
    handleAddCore path newInst instances = none := by
  obtain ⟨inst, hmem, hp⟩ := h
  have hc : instances.any (fun i => i.ProjectPath = path) = true :=
    List.any_eq_true.mpr ⟨inst, hmem, decide_eq_true hp⟩
  simp [handleAddCore, hc]

/-- Witness for C6 at a one-element list holding the duplicate path. -/
theorem handleAdd_duplicate_c6_witness :
    handleAddCore "/p/a" ⟨"new", "t", "/p/a", "g", "", "shell", .idle, 9, none⟩
      [⟨"old", "o", "/p/a", "g", "", "shell", .idle, 1, none⟩] = none :=
  handleAdd_duplicate_c6 _ _ _ (by decide)

/-- Counterexample to C8: with the profile selector set, the computed
storage path is identical to the path computed without it — the
production path under the operator's home directory; no redirection
happens, because `GetStoragePath` never consults the environment
selector. -/
theorem getStoragePath_c8_counterexample :
    GetStoragePath ⟨some "/home/op", some "agentdeck-test"⟩ =
      GetStoragePath ⟨some "/home/op", none⟩ ∧
    GetStoragePath ⟨some "/home/op", some "agentdeck-test"⟩ =
      .ok "/home/op/.agent-deck/sessions.json" := by decide

/-- C8 as amended: the storage path is always
`homeDir/.agent-deck/sessions.json`; the environment-level profile
selector is ignored and no alternate location is ever used. -/
theorem getStoragePath_amended_c8 (env : OSEnv) (homeDir : String)
    (hh : env.home = some homeDir) :
    GetStoragePath env = .ok (goJoin [homeDir, ".agent-deck", "sessions.json"]) ∧
    ∀ sel : Option String,
      GetStoragePath ⟨env.home, sel⟩ = GetStoragePath env := by
  unfold GetStoragePath
  rw [hh]
  exact ⟨rfl, fun _ => rfl⟩

/-- Witness for the amended C8 at a concrete home directory and two
concrete selector values. -/
theorem getStoragePath_amended_c8_witness :
    GetStoragePath ⟨some "/home/op", some "x"⟩ =
      .ok (goJoin ["/home/op", ".agent-deck", "sessions.json"]) ∧
    GetStoragePath ⟨some "/home/op", some "other"⟩ =
      GetStoragePath ⟨some "/home/op", some "x"⟩ :=
  ⟨(getStoragePath_amended_c8 ⟨some "/home/op", some "x"⟩ "/home/op" rfl).1,
   (getStoragePath_amended_c8 ⟨some "/home/op", some "x"⟩ "/home/op" rfl).2 (some "other")⟩

theorem slash_prefix_iff (l : List Char) :
    (['/'] : List Char).isPrefixOf l = true ↔ ∃ t, l = '/' :: t := by
  cases l with
  | nil => simp [List.isPrefixOf]
  | cons c cs =>
    constructor
    · intro h
      simp [List.isPrefixOf] at h
      exact ⟨cs, by rw [← h]⟩
    · rintro ⟨t, ht⟩
      rw [ht]
      simp [List.isPrefixOf]

theorem goHasPrefix_slash_append (h x : String) (hh : goHasPrefix h "/" = true) :
    goHasPrefix (h ++ x) "/" = true := by
  unfold goHasPrefix at *
  have hl : (h ++ x).toList = h.toList ++ x.toList := string_data_append h x
  rw [hl]
  obtain ⟨t, ht⟩ := (slash_prefix_iff h.toList).mp hh
  rw [ht]
  simp [List.isPrefixOf]

theorem goClean_slash (p : String) (hp : goHasPrefix p "/" = true) :
    goHasPrefix (goClean p) "/" = true := by
  have hne : p ≠ "" := by
    intro he
    rw [he] at hp
    exact absurd hp (by decide)
  unfold goClean
  rw [if_neg hne]
  simp only [hp]
  by_cases hparts : (cleanLoop true [] (goSplitSlash p)).reverse = []
  · simp [hparts]
    decide
  · simp only [hparts, if_neg hparts, if_true]
    exact goHasPrefix_slash_append "/" _ (by decide)

theorem goJoin_pair_slash (h r : String) (hh : goHasPrefix h "/" = true) :
    goHasPrefix (goJoin [h, r]) "/" = true := by
  have hne : h ≠ "" := by
    intro he
    rw [he] at hh
    exact absurd hh (by decide)
  unfold goJoin
  by_cases hr : r = ""
  · subst hr
    simp only [List.filter, hne, decide_not]
    simp [hne]
    exact goClean_slash h hh
  · simp [hne, hr]
    exact goClean_slash _
      (goHasPrefix_slash_append _ r (goHasPrefix_slash_append h "/" hh))

/-- Fixture for C9: a stored record whose project path begins with a
tilde not followed by a slash. -/
def dC9 : InstanceData := ⟨"i9", "t", "~abc", "g", "c", "shell", .idle, 0, ""⟩

/-- Counterexample to C9: the stored project path `"~abc"` begins with a
tilde, yet load returns it unchanged (and non-absolute) — only the
two-character prefix `"~/"` triggers expansion. -/
theorem expandTilde_c9_counterexample :
    goHasPrefix dC9.ProjectPath "~" = true ∧
    (loadInstance ⟨some "/home/u", fun _ => Status.idle⟩ dC9).ProjectPath = "~abc" ∧
    goHasPrefix "~abc" "/" = false := by decide

/-- C9 as amended: at load time a project path beginning with `"~/"` has
that prefix replaced by `filepath.Join(home, rest)` (yielding a path
rooted at an absolute home directory), while every path not beginning
with `"~/"` — including `"~"`-prefixed ones like `"~abc"` — is returned
unchanged; `loadInstance` applies exactly this expansion. -/
theorem expandTilde_amended_c9 (env : LoadEnv) (homeDir path : String)
    (d : InstanceData) (hh : env.home = some homeDir) :
    (goHasPrefix path "~/" = true →
      expandTilde env.home path = goJoin [homeDir, goDrop path 2]) ∧
    (goHasPrefix path "~/" = false → expandTilde env.home path = path) ∧
    (goHasPrefix homeDir "/" = true → goHasPrefix path "~/" = true →
      goHasPrefix (expandTilde env.home path) "/" = true) ∧
    (loadInstance env d).ProjectPath = expandTilde env.home d.ProjectPath := by
  refine ⟨?_, ?_, ?_, ?_⟩
  · intro hp
    simp [expandTilde, hp, hh]
  · intro hp
    simp [expandTilde, hp]
  · intro hhd hp
    have he : expandTilde env.home path = goJoin [homeDir, goDrop path 2] := by
      simp [expandTilde, hp, hh]
    rw [he]
    exact goJoin_pair_slash homeDir _ hhd
  · rfl

/-- Fixture environment for the C9 witness. -/
def env9 : LoadEnv := ⟨some "/home/u", fun _ => Status.idle⟩

/-- Witness for the amended C9 at the concrete paths `"~/x"` and
`"/abs"`. -/
theorem expandTilde_amended_c9_witness :
    expandTilde (some "/home/u") "~/x" = goJoin ["/home/u", goDrop "~/x" 2] ∧
    expandTilde (some "/home/u") "/abs" = "/abs" ∧
    goHasPrefix (expandTilde (some "/home/u") "~/x") "/" = true ∧
    (loadInstance env9 dC9).ProjectPath = expandTilde (some "/home/u") dC9.ProjectPath :=
  ⟨(expandTilde_amended_c9 env9 "/home/u" "~/x" dC9 rfl).1 (by decide),
   (expandTilde_amended_c9 env9 "/home/u" "/abs" dC9 rfl).2.1 (by decide),
   (expandTilde_amended_c9 env9 "/home/u" "~/x" dC9 rfl).2.2.1 (by decide) (by decide),
   (expandTilde_amended_c9 env9 "/home/u" "~/x" dC9 rfl).2.2.2⟩

/-- Fixture for C7: a bound stored record persisted with status Error. -/
def dE7 : InstanceData := ⟨"e7", "tE", "/p", "g", "c", "claude", .error, 0, "sessE"⟩

/-- Fixture for C7: a bound stored record persisted with status Waiting. -/
def dW7 : InstanceData := ⟨"w7", "tW", "/p", "g", "c", "claude", .waiting, 0, "sessW"⟩

/-- Fixture for C7: a canonical file holding both records. -/
def fs7 : FSState :=
  ⟨fun q => if q = "/d/sessions.json" then some (.valid ⟨[dE7, dW7], [], 0⟩) else none⟩

/-- Fixture load environment for C7. -/
def env7 : LoadEnv := ⟨some "/home/u", fun _ => Status.idle⟩

/-- Counterexample to C7: two persisted instances with distinct statuses
(Error and Waiting) are handed to reconnect with the SAME prior-status
argument `"waiting"` — `statusToString` collapses Error into
`"waiting"`, so the exact pre-restart status is not passed unchanged. -/
theorem load_prior_status_c7_counterexample :
    dE7.Status = Status.error ∧ dW7.Status = Status.waiting ∧
    (match (Storage.mk "/d/sessions.json").loadWithGroups env7 fs7 with
      | .ok (_, _, trace) => trace.map ReconnectCall.prevStatus
      | .error _ => []) = ["waiting", "waiting"] := by decide

/-- C7 as amended: for every persisted instance with a non-empty bound
session name, load passes `statusToString` of the persisted status as
the prior status to reconnect — Running, Waiting and Idle map to the
distinct strings "active"/"waiting"/"idle", while Error is deliberately
collapsed to "waiting" ("treat errors as needing attention"), so only
the first three are preserved exactly across a restart. -/
theorem load_reconnect_prior_status_c7 (s : Storage) (env : LoadEnv)
    (fs : FSState) (data : StorageData)
    (h : fs.files s.path = some (.valid data)) :
    s.loadWithGroups env fs =
      .ok (data.Instances.map (loadInstance env), data.Groups,
           data.Instances.filterMap reconnectCallOf) ∧
    (∀ d ∈ data.Instances, d.TmuxSession ≠ "" →
      ReconnectCall.mk d.TmuxSession d.Title d.ProjectPath d.Command
          (statusToString d.Status) ∈ data.Instances.filterMap reconnectCallOf) ∧
    statusToString .running = "active" ∧ statusToString .waiting = "waiting" ∧
    statusToString .idle = "idle" ∧ statusToString .error = "waiting" := by
  refine ⟨?_, ?_, rfl, rfl, rfl, rfl⟩
  · unfold Storage.loadWithGroups
    rw [h]
  · intro d hd hne
    refine List.mem_filterMap.mpr ⟨d, hd, ?_⟩
    simp [reconnectCallOf, hne]

/-- Witness for the amended C7: the Error-status record of `fs7` appears
in the reconnect trace with prior status `statusToString Status.error`
(that is, `"waiting"`). -/
theorem load_reconnect_prior_status_c7_witness :
    ReconnectCall.mk "sessE" "tE" "/p" "c" (statusToString Status.error) ∈
      ([dE7, dW7] : List InstanceData).filterMap reconnectCallOf :=
  (load_reconnect_prior_status_c7 (Storage.mk "/d/sessions.json") env7 fs7
      ⟨[dE7, dW7], [], 0⟩ rfl).2.1 dE7 (by decide) (by decide)

/-- Field equality of instances as C1 enumerates it: id, title, project
path, group path, command, tool, status, creation timestamp, and
bound-session name. -/
def instFieldEq (a b : Instance) : Prop :=
  a.ID = b.ID ∧ a.Title = b.Title ∧ a.ProjectPath = b.ProjectPath ∧
  a.GroupPath = b.GroupPath ∧ a.Command = b.Command ∧ a.Tool = b.Tool ∧
  a.Status = b.Status ∧ a.CreatedAt = b.CreatedAt ∧ boundName a = boundName b

/-- A successful save leaves the serialised snapshot at the canonical
path. -/
theorem save_ok_canonical (s : Storage) (env : IOEnv) (fs : FSState)
    (instances : List Instance) (tree : Option GroupTree)
    (hw : env.writeTmpFails = false) (hr : env.renameFails = false) :
    (s.saveWithGroups env fs instances tree).fs.files s.path =
      some (.valid (storageDataOf env instances tree)) := by
  rcases env with ⟨now, wtf, bcf, rnf⟩
  simp only at hw hr
  subst hw
  subst hr
  cases bcf <;>
    rcases hfp : fs.files s.path with _ | c <;>
    simp [Storage.saveWithGroups, storageDataOf, FSState.files_set, FSState.files_del,
      ne_path_tmp s.path, ne_path_bak s.path, hfp]

/-- Loading the serialisation of one instance reproduces its fields,
provided the project path is not tilde-prefixed, the group path is
non-empty, and (for a bound instance) the detector pass returns the
persisted status. -/
theorem loadInstance_roundtrip (ldEnv : LoadEnv) (inst : Instance)
    (h1 : goHasPrefix inst.ProjectPath "~/" = false)
    (h2 : inst.GroupPath ≠ "")
    (h3 : boundName inst ≠ "" → ldEnv.detect (boundName inst) = inst.Status) :
    instFieldEq (loadInstance ldEnv (instanceToData inst)) inst := by
  rcases hts : inst.tmuxSession with _ | t
  · simp [instFieldEq, loadInstance, instanceToData, expandTilde, boundName, h1, h2, hts]
  · by_cases hn : t.Name = ""
    · simp [instFieldEq, loadInstance, instanceToData, expandTilde, boundName, h1, h2, hts, hn]
    · have h3' : ldEnv.detect t.Name = inst.Status := by
        have hd := h3 (by simp [boundName, hts, hn])
        simpa [boundName, hts] using hd
      simp [instFieldEq, loadInstance, instanceToData, expandTilde, boundName,
        h1, h2, hts, hn, h3']

/-- Fixture for C1: an instance whose project path is tilde-prefixed. -/
def iC1 : Instance := ⟨"id0", "t0", "~/x", "g", "cmd", "shell", .idle, 5, none⟩

/-- Counterexample to C1: saving and reloading the non-empty snapshot
`[iC1]` yields an instance whose project path is `"/home/u/x"`, not the
original `"~/x"` — tilde expansion at load time breaks field equality,
so `load(save(s))` is not field-equal to `s` for every non-empty
snapshot. -/
theorem save_load_roundtrip_c1_counterexample :
    (match (Storage.mk "/d/sessions.json").loadWithGroups ⟨some "/home/u", fun _ => .idle⟩
        ((Storage.mk "/d/sessions.json").saveWithGroups ⟨7, false, false, false⟩
          ⟨fun _ => none⟩ [iC1] (some ⟨[⟨"g", "g", true, 0⟩]⟩)).fs with
      | .ok (insts, _, _) => insts.map Instance.ProjectPath
      | .error _ => []) = ["/home/u/x"] ∧
    iC1.ProjectPath = "~/x" := by decide

/-- C1 as amended: loading after a successful save reproduces every
instance field-for-field (id, title, project path, group path, command,
tool, status, creation timestamp, bound-session name) and the group
records in order, for every non-empty snapshot whose instances have
non-tilde-prefixed project paths and non-empty group paths, and whose
bound instances get their persisted status back from the single
detector pass load runs on them. -/
theorem save_load_roundtrip_c1 (s : Storage) (ioEnv : IOEnv) (ldEnv : LoadEnv)
    (fs : FSState) (instances : List Instance) (tree : Option GroupTree)
    (hw : ioEnv.writeTmpFails = false) (hr : ioEnv.renameFails = false)
    (_hne : instances ≠ [])
    (hinst : ∀ inst ∈ instances,
      goHasPrefix inst.ProjectPath "~/" = false ∧
      inst.GroupPath ≠ "" ∧
      (boundName inst ≠ "" → ldEnv.detect (boundName inst) = inst.Status)) :
    s.loadWithGroups ldEnv (s.saveWithGroups ioEnv fs instances tree).fs =
      .ok (instances.map (fun inst => loadInstance ldEnv (instanceToData inst)),
           groupDataList tree,
           instances.filterMap (fun inst => reconnectCallOf (instanceToData inst))) ∧
    List.Forall₂ instFieldEq
      (instances.map (fun inst => loadInstance ldEnv (instanceToData inst)))
      instances := by
  constructor
  · unfold Storage.loadWithGroups
    rw [save_ok_canonical s ioEnv fs instances tree hw hr]
    simp [storageDataOf, List.map_map, List.filterMap_map, Function.comp_def]
  · rw [List.forall₂_map_left_iff, List.forall₂_same]
    intro inst hmem
    obtain ⟨h1, h2, h3⟩ := hinst inst hmem
    exact loadInstance_roundtrip ldEnv inst h1 h2 h3

/-- Fixture for the C1 witness: a bound instance with a plain absolute
path and non-empty group path. -/
def iW1 : Instance :=
  ⟨"idw", "tw", "/p/x", "g", "c", "claude", .running, 3,
   some ⟨"sessW1", "tw", "/p/x", "c", "active"⟩⟩

/-- Fixture load environment for the C1 witness: the detector pass
reports Running, matching the persisted status. -/
def ldW1 : LoadEnv := ⟨some "/home/u", fun _ => Status.running⟩

/-- Fixture group list for the C1 witness. -/
def treeW1 : Option GroupTree := some ⟨[⟨"g", "g", true, 0⟩]⟩

/-- Witness for the amended C1 on the concrete one-instance snapshot
`[iW1]` with group list `treeW1`. -/
theorem save_load_roundtrip_c1_witness :
    (Storage.mk "/w/sessions.json").loadWithGroups ldW1
        ((Storage.mk "/w/sessions.json").saveWithGroups ⟨3, false, false, false⟩
          ⟨fun _ => none⟩ [iW1] treeW1).fs =
      .ok ([iW1].map (fun inst => loadInstance ldW1 (instanceToData inst)),
           groupDataList treeW1,
           [iW1].filterMap (fun inst => reconnectCallOf (instanceToData inst))) ∧
    List.Forall₂ instFieldEq
      ([iW1].map (fun inst => loadInstance ldW1 (instanceToData inst))) [iW1] :=
  save_load_roundtrip_c1 _ _ _ _ _ _ rfl rfl (by decide) (by decide)

end AgentDeck
